import Mathlib

/-!
Verification of the edge CDN worker (src/src/index.ts) against its
specification.  The TypeScript source is shallowly embedded: pure helpers
become Lean functions, the key-value stores (CDN_METADATA, CDN_CACHE,
FILE_CONTENT, FILE_VERSIONS) become explicit state records threaded through
each operation, and external effects that the worker treats as opaque
(SHA digests, Date#toISOString, Math.random draws) are supplied as oracle
parameters that the theorems quantify over.  JSON values stored in and read
back from a KV namespace are modelled structurally, relying on the fact that
serialisation followed by parsing is the identity.  The environment is
modelled without the optional ASSETS_DB binding, a configuration the code
explicitly supports; in that configuration the KV namespaces are the
authoritative stores.
-/

/-- JavaScript String#substring with both indices given: clamps the indices
to the string length and swaps them when out of order. -/
def jsSubstring (s : String) (i j : Nat) : String :=
  let len := s.toList.length
  let a := min i len
  let b := min j len
  let lo := min a b
  let hi := max a b
  String.mk ((s.toList.drop lo).take (hi - lo))

/-- JavaScript String#startsWith. -/
def jsStartsWith (s pre : String) : Bool :=
  pre.toList.isPrefixOf s.toList

/-- JavaScript String#includes. -/
def jsIncludes (s sub : String) : Bool :=
  (List.range (s.toList.length + 1)).any fun i => sub.toList.isPrefixOf (s.toList.drop i)

/-- Digit characters used by JavaScript Number#toString(36). -/
def base36Digit (n : Nat) : Char :=
  if n < 10 then Char.ofNat (48 + n) else Char.ofNat (87 + n)

/-- Accumulator loop for base-36 rendering of a natural number. -/
def toBase36Aux : Nat → List Char → List Char
  | n, acc =>
    if h : n < 36 then base36Digit n :: acc
    else toBase36Aux (n / 36) (base36Digit (n % 36) :: acc)
  decreasing_by exact Nat.div_lt_self (Nat.lt_of_lt_of_le (by omega) (Nat.le_of_not_lt h)) (by omega)

/-- JavaScript Number#toString(36) for a non-negative integer. -/
def toBase36 (n : Nat) : String :=
  String.mk (toBase36Aux n [])

/-- Sum of the UTF-16 code units of a string, the pervasive
split-reduce-charCodeAt hashing idiom of the source. -/
def charCodeSum (s : String) : Nat :=
  s.toList.foldl (fun acc c => acc + c.toNat) 0

/-- Header maps as association lists; Headers#set replaces any previous
value for the name. -/
def setHeader (hs : List (String × String)) (k v : String) : List (String × String) :=
  (k, v) :: hs.filter (fun p => p.1 ≠ k)

/-- Headers#get. -/
def getHeader (hs : List (String × String)) (k : String) : Option String :=
  (hs.find? (fun p => p.1 = k)).map Prod.snd

/-- HTTP responses as the worker observes them: status, headers and a raw
byte body. -/
structure WResp where
  status : Nat
  statusText : String
  headers : List (String × String)
  body : List Nat
  deriving Repr, DecidableEq

/-- Bytes of an ASCII string, for bodies built from string literals. -/
def asciiBytes (s : String) : List Nat :=
  s.toList.map Char.toNat

/-- Embedding of createErrorResponse: a JSON error body with the given
status code.  The structured payload stands for the serialised JSON. -/
structure ErrResp where
  status : Nat
  error : String
  deriving Repr, DecidableEq

/-! ## Range requests (claim C5)

Embedding of isMediaFile and handleRangeRequest (src/src/index.ts,
lines 2163-2191).  The range header has already been parsed into the start
and end values exactly as the source computes them; the function body below
follows the source line by line. -/

/-- Embedding of isMediaFile: video, audio or octet-stream content types. -/
def isMediaFile (contentType : String) : Bool :=
  jsStartsWith contentType "video/" ||
  jsStartsWith contentType "audio/" ||
  contentType == "application/octet-stream"

/-- Embedding of handleRangeRequest.  The body buffer is a byte list, and
startVal and endVal are the parsed range bounds. -/
def handleRangeRequest (body : List Nat) (startVal endVal : Nat)
    (headers : List (String × String)) (contentType : String) : WResp :=
  let fileSize := body.length
  if startVal ≥ fileSize ∨ endVal ≥ fileSize then
    { status := 416
      statusText := ""
      headers := setHeader headers "Content-Range" ("bytes */" ++ toString fileSize)
      body := asciiBytes "Range Not Satisfiable" }
  else
    let chunkSize := (endVal - startVal) + 1
    let chunk := (body.drop startVal).take (endVal + 1 - startVal)
    let h1 := setHeader headers "Content-Range"
      ("bytes " ++ toString startVal ++ "-" ++ toString endVal ++ "/" ++ toString fileSize)
    let h2 := setHeader h1 "Content-Length" (toString chunkSize)
    let h3 := setHeader h2 "Content-Type" contentType
    { status := 206, statusText := "", headers := h3, body := chunk }

/-! ## Quota accounting (claim C6)

Embedding of checkUserQuota (lines 1207-1245) and of the quota gate at the
top of handleUploadRequest (lines 3168-3192).  The usage numbers computed
by calculateUserUsage are passed in, since they are reads of external
storage. -/

structure QuotaLimits where
  maxFiles : Int
  maxStorage : Int
  deriving Repr, DecidableEq

/-- The fixed role table of checkUserQuota; an unknown role falls back to
the user quota, matching the JavaScript object-lookup-or-default. -/
def quotaFor (role : String) : QuotaLimits :=
  if role = "user" then ⟨100, 1024 * 1024 * 1024⟩
  else if role = "premium" then ⟨1000, 10 * 1024 * 1024 * 1024⟩
  else if role = "admin" then ⟨-1, -1⟩
  else ⟨100, 1024 * 1024 * 1024⟩

structure QuotaResult where
  canUpload : Bool
  reason : Option String
  deriving Repr, DecidableEq

/-- Math.round on an exact ratio of naturals: floor of the ratio plus one
half. -/
def jsRoundRatio (num den : Nat) : Nat :=
  (2 * num + den) / (2 * den)

/-- The limit-testing chain of checkUserQuota: unlimited sentinel first,
then the file count, then the storage bytes. -/
def checkQuotaLimits (quota : QuotaLimits) (files storage : Nat) : QuotaResult :=
  if quota.maxFiles = -1 ∧ quota.maxStorage = -1 then
    ⟨true, none⟩
  else if quota.maxFiles > 0 ∧ (files : Int) ≥ quota.maxFiles then
    ⟨false, some ("File limit exceeded (" ++ toString files ++ "/" ++ toString quota.maxFiles ++ ")")⟩
  else if quota.maxStorage > 0 ∧ (storage : Int) ≥ quota.maxStorage then
    let usedMB := jsRoundRatio storage (1024 * 1024)
    let maxMB := jsRoundRatio quota.maxStorage.toNat (1024 * 1024)
    ⟨false, some ("Storage limit exceeded (" ++ toString usedMB ++ "MB/" ++ toString maxMB ++ "MB)")⟩
  else
    ⟨true, none⟩

/-- Embedding of checkUserQuota.  The role argument is user.role with the
JavaScript or-default meaning that an absent role is the empty string;
files and storage are the usage totals returned by calculateUserUsage. -/
def checkUserQuota (role : String) (files storage : Nat) : QuotaResult :=
  let userRole := if role = "" then "user" else role
  let quota := quotaFor userRole
  checkQuotaLimits quota files storage

/-- Embedding of the authentication and quota gate of handleUploadRequest:
the part of the handler that runs before any upload work.  Returns the
short-circuit error response, or none when the request may proceed to the
upload body. -/
def uploadRequestGate (authSuccess : Bool) (quota : QuotaResult) : Option ErrResp :=
  if !authSuccess then
    some ⟨401, "Authentication required for uploads"⟩
  else if !quota.canUpload then
    some ⟨403, quota.reason.getD "Upload quota exceeded"⟩
  else
    none

/-! ## Request hashing (claim C9)

Embedding of hashRequest (lines 2260-2269).  Requests are modelled with the
fields the worker reads: method, pathname, query string, a header lookup
and a body. -/

structure JsRequest where
  method : String
  url : String
  path : String
  search : String
  headers : String → Option String
  body : List Nat

/-- Standard base64 alphabet indexing for btoa. -/
def base64Char (n : Nat) : Char :=
  if n < 26 then Char.ofNat (65 + n)
  else if n < 52 then Char.ofNat (97 + (n - 26))
  else if n < 62 then Char.ofNat (48 + (n - 52))
  else if n = 62 then '+'
  else '/'

/-- Base64 encoding of a byte list, three bytes at a time with padding. -/
def base64Encode : List Nat → List Char
  | [] => []
  | [a] =>
    [base64Char (a / 4), base64Char ((a % 4) * 16), '=', '=']
  | [a, b] =>
    [base64Char (a / 4), base64Char ((a % 4) * 16 + b / 16), base64Char ((b % 16) * 4), '=']
  | a :: b :: c :: rest =>
    base64Char (a / 4) :: base64Char ((a % 4) * 16 + b / 16) ::
    base64Char ((b % 16) * 4 + c / 64) :: base64Char (c % 64) :: base64Encode rest

/-- JavaScript btoa on a string whose code points are all below 256. -/
def btoa (s : String) : String :=
  String.mk (base64Encode (s.toList.map Char.toNat))

/-- Embedding of hashRequest: method, path and query joined with the three
relevant header values, base64 encoded, stripped to alphanumerics and
truncated to 32 characters. -/
def hashRequest (r : JsRequest) : String :=
  let key := r.method ++ ":" ++ r.path ++ r.search
  let relevantHeaders := ["authorization", "accept", "accept-language"]
  let headerValues := String.intercalate ":" (relevantHeaders.map fun h => (r.headers h).getD "")
  String.mk (((btoa (key ++ ":" ++ headerValues)).toList.filter Char.isAlphanum).take 32)

/-! ## User upload tracking (claim C10)

Embedding of trackUserUpload (lines 1183-1202).  An upload entry is kept
abstract apart from the createdAt timestamp the sort reads; the payload
field stands for the rest of the spread file metadata. -/

structure UserUpload where
  createdAt : Nat
  payload : String
  deriving Repr, DecidableEq

/-- Comparator of the trackUserUpload sort: newest first.  JavaScript
Array#sort is stable, as is List.mergeSort. -/
def newestFirst (a b : UserUpload) : Bool :=
  decide (b.createdAt ≤ a.createdAt)

/-- Embedding of trackUserUpload acting on the stored user_uploads list:
append the new entry, sort newest first, keep the first 1000. -/
def trackUserUpload (existingUploads : List UserUpload) (entry : UserUpload) : List UserUpload :=
  ((existingUploads ++ [entry]).mergeSort newestFirst).take 1000

/-- The entries trackUserUpload discards: everything past the first 1000 of
the sorted list. -/
def trackUserUploadDropped (existingUploads : List UserUpload) (entry : UserUpload) : List UserUpload :=
  ((existingUploads ++ [entry]).mergeSort newestFirst).drop 1000

/-! ## Versioned file store (claims C1, C2, C4, C7)

Data model of FileMetadata and FileVersion and embedding of
updateFileMetadata (lines 1351-1440), updateFileContent (1445-1538),
restoreFileVersion (1647-1705), createFileVersion (1710-1764) and
getFileVersions (1769-1787).  The KV namespaces are modelled as one Store
record of partial maps; string keys such as version:{id}:{n} become
structured keys.  The environment has no ASSETS_DB binding, so every
database block of the source is skipped, as the source itself does when the
binding is absent. -/

structure FileMetadata where
  id : String
  name : String
  originalName : String
  path : String
  mimeType : String
  size : Nat
  owner : String
  ownerId : String
  created : Nat
  modified : Nat
  version : Nat
  isPublic : Bool
  tags : List String
  description : String
  customFields : List (String × String)
  deriving Repr, DecidableEq

/-- A JSON object sent as a metadata update or stored inside a version
record: a partial record over the FileMetadata fields.  A present field
models a key present in the JavaScript object, so object spread applies
it. -/
structure MetaPatch where
  id : Option String := none
  name : Option String := none
  originalName : Option String := none
  path : Option String := none
  mimeType : Option String := none
  size : Option Nat := none
  owner : Option String := none
  ownerId : Option String := none
  created : Option Nat := none
  modified : Option Nat := none
  version : Option Nat := none
  isPublic : Option Bool := none
  tags : Option (List String) := none
  description : Option String := none
  customFields : Option (List (String × String)) := none
  deriving Repr, DecidableEq

/-- JavaScript object spread of a patch over full metadata. -/
def applyPatch (m : FileMetadata) (p : MetaPatch) : FileMetadata where
  id := p.id.getD m.id
  name := p.name.getD m.name
  originalName := p.originalName.getD m.originalName
  path := p.path.getD m.path
  mimeType := p.mimeType.getD m.mimeType
  size := p.size.getD m.size
  owner := p.owner.getD m.owner
  ownerId := p.ownerId.getD m.ownerId
  created := p.created.getD m.created
  modified := p.modified.getD m.modified
  version := p.version.getD m.version
  isPublic := p.isPublic.getD m.isPublic
  tags := p.tags.getD m.tags
  description := p.description.getD m.description
  customFields := p.customFields.getD m.customFields

/-- Spreading a full FileMetadata value where an object is expected, as
restoreFileVersion does with the snapshot stored by its backup step: every
field is present. -/
def FileMetadata.toPatch (m : FileMetadata) : MetaPatch where
  id := some m.id
  name := some m.name
  originalName := some m.originalName
  path := some m.path
  mimeType := some m.mimeType
  size := some m.size
  owner := some m.owner
  ownerId := some m.ownerId
  created := some m.created
  modified := some m.modified
  version := some m.version
  isPublic := some m.isPublic
  tags := some m.tags
  description := some m.description
  customFields := some m.customFields

inductive ChangeType
  | metadata
  | content
  | both
  deriving Repr, DecidableEq

/-- The changes payload of a FileVersion record, as the three call sites
build it: a metadata object and/or the size and hash of the prior
content. -/
structure VersionChanges where
  metadata : Option MetaPatch := none
  contentSize : Option Nat := none
  contentHash : Option String := none
  deriving Repr, DecidableEq

structure VersionStorage where
  contentBytes : Nat
  metadataBytes : Nat
  deriving Repr, DecidableEq

structure FileVersion where
  version : Nat
  timestamp : Nat
  author : String
  authorId : String
  changeType : ChangeType
  changes : VersionChanges
  storage : VersionStorage
  deriving Repr, DecidableEq

structure JsUser where
  id : String
  name : String
  email : String
  role : String
  deriving Repr, DecidableEq

/-- Metadata attached to a CDN_CACHE asset entry.  Optional fields model
keys that may be absent from the stored object. -/
structure CdnCacheMeta where
  contentType : Option String := none
  size : Option String := none
  name : Option String := none
  description : Option String := none
  tags : Option (List String) := none
  customFields : Option (List (String × String)) := none
  lastModified : Option String := none
  deriving Repr, DecidableEq

structure CdnCacheEntry where
  value : List Nat
  meta : CdnCacheMeta
  deriving Repr, DecidableEq

/-- The KV-backed state the versioned file store reads and writes.
fileMeta is CDN_METADATA at file:{id}; storageUsage is CDN_METADATA at
storage_usage:{userId}; fileContent is FILE_CONTENT at content:{id};
versionRecords, versionContents and versionIndex are FILE_VERSIONS at
version:{id}:{n}, version_content:{id}:{n} and versions:{id}; cdnCache is
CDN_CACHE at asset:{path}. -/
structure Store where
  fileMeta : String → Option FileMetadata
  fileContent : String → Option (List Nat)
  versionRecords : String × Nat → Option FileVersion
  versionContents : String × Nat → Option (List Nat)
  versionIndex : String → Option (List Nat)
  cdnCache : String → Option CdnCacheEntry
  storageUsage : String → Option (Int × Int × Int × Nat)

/-- External computations the store operations treat as opaque: the SHA-256
content hash of generateContentHash, and the byte length of the JSON
serialisation of a metadata record (TextEncoder + JSON.stringify). -/
structure StoreOracle where
  contentHash : List Nat → String
  metaJsonLength : FileMetadata → Nat
  isoNow : String

/-- Pointwise update of a partial map at one key. -/
def mapPut {α β : Type} [DecidableEq α] (f : α → Option β) (k : α) (v : β) : α → Option β :=
  fun x => if x = k then some v else f x

/-- Pointwise removal of one key of a partial map. -/
def mapDel {α β : Type} [DecidableEq α] (f : α → Option β) (k : α) : α → Option β :=
  fun x => if x = k then none else f x

/-- JavaScript or-fallback on strings: the empty string is falsy. -/
def jsOrStr (a b : String) : String :=
  if a = "" then b else a

/-- Descending numeric sort, the sort((a, b) => b - a) of the version
index. -/
def sortDescNat (l : List Nat) : List Nat :=
  l.mergeSort (fun a b => decide (b ≤ a))

/-- One pass of the cleanup loop of createFileVersion: delete the version
record and the version content blob of one evicted version number. -/
def delVersionStep (fileId : String) (st : Store) (oldVersion : Nat) : Store :=
  { st with
    versionRecords := mapDel st.versionRecords (fileId, oldVersion)
    versionContents := mapDel st.versionContents (fileId, oldVersion) }

/-- Embedding of createFileVersion: store a content snapshot when the
change touches content, write the version record under the version number
of the still-unmodified metadata, then insert that number into the
bounded index, trimming it to 50 entries and deleting the records and
blobs of every trimmed-out version. -/
def createFileVersion (s : Store) (oracle : StoreOracle) (metadata : FileMetadata)
    (user : JsUser) (changeType : ChangeType) (changes : VersionChanges)
    (now : Nat) : Store :=
  let versionNumber := metadata.version
  let metadataSize := oracle.metaJsonLength metadata
  let contentRead :=
    if changeType = ChangeType.content ∨ changeType = ChangeType.both then
      s.fileContent metadata.id
    else none
  let contentSize := (contentRead.map List.length).getD 0
  let s1 : Store :=
    { s with versionContents :=
        match contentRead with
        | some currentContent =>
          mapPut s.versionContents (metadata.id, versionNumber) currentContent
        | none => s.versionContents }
  let versionData : FileVersion :=
    { version := versionNumber
      timestamp := now
      author := jsOrStr user.name user.email
      authorId := user.id
      changeType := changeType
      changes := changes
      storage := { contentBytes := contentSize, metadataBytes := metadataSize } }
  let records2 := mapPut s1.versionRecords (metadata.id, versionNumber) versionData
  let s2 := { s1 with versionRecords := records2 }
  let versionIndex := (s2.versionIndex metadata.id).getD []
  if versionNumber ∈ versionIndex then s2
  else
    let sorted := sortDescNat (versionIndex ++ [versionNumber])
    let trimmedIndex := sorted.take 50
    let s3 := { s2 with versionIndex := mapPut s2.versionIndex metadata.id trimmedIndex }
    (sorted.drop 50).foldl (delVersionStep metadata.id) s3

/-- Comparator of the getFileVersions sort: newest timestamp first. -/
def versionNewestFirst (a b : FileVersion) : Bool :=
  decide (b.timestamp ≤ a.timestamp)

/-- Embedding of getFileVersions: fetch every record named by the index and
sort the hits newest first by timestamp. -/
def getFileVersions (s : Store) (fileId : String) : List FileVersion :=
  let versionIndex := (s.versionIndex fileId).getD []
  let versions := versionIndex.filterMap (fun n => s.versionRecords (fileId, n))
  versions.mergeSort versionNewestFirst

/-- Embedding of updateUserStorageUsage: adjust the per-user running totals
stored under storage_usage:{userId}. -/
def updateUserStorageUsage (s : Store) (userId : String) (oldSize newSize : Nat)
    (isVersion : Bool) (now : Nat) : Store :=
  let current := (s.storageUsage userId).getD (0, 0, 0, 0)
  let files := current.1
  let versions := current.2.1
  let delta : Int := (newSize : Int) - (oldSize : Int)
  let files' := if isVersion then files else files + delta
  let versions' := if isVersion then versions + delta else versions
  { s with storageUsage := mapPut s.storageUsage userId (files', versions', files' + versions', now) }

/-- Success payload of updateFileMetadata and updateFileContent. -/
structure UpdateOk where
  version : Nat
  size : Option Nat := none
  deriving Repr, DecidableEq

/-- Embedding of updateFileMetadata.  With no database binding,
getFileMetadata is the KV read, and the database update block is skipped.
The version backup is created before the patch is applied, and its changes
payload is the literal object built at the call site: the incoming update
data. -/
def updateFileMetadata (s : Store) (oracle : StoreOracle) (fileId : String)
    (user : JsUser) (updateData : MetaPatch) (now : Nat) :
    (ErrResp ⊕ UpdateOk) × Store :=
  match s.fileMeta fileId with
  | none => (Sum.inl ⟨404, "File not found"⟩, s)
  | some currentMetadata =>
    let s1 := createFileVersion s oracle currentMetadata user ChangeType.metadata
      { metadata := some updateData } now
    let updatedMetadata :=
      { applyPatch currentMetadata updateData with
        modified := now
        version := currentMetadata.version + 1 }
    let s2 := { s1 with fileMeta := mapPut s1.fileMeta fileId updatedMetadata }
    let s3 :=
      match s2.cdnCache ("asset:" ++ currentMetadata.path) with
      | some existingAsset =>
        let existingMeta := existingAsset.meta
        let updatedMetadataObj : CdnCacheMeta :=
          { contentType := some (jsOrStr (existingMeta.contentType.getD "") currentMetadata.mimeType)
            size := some (jsOrStr (existingMeta.size.getD "") (toString currentMetadata.size))
            name := some updatedMetadata.name
            description := some updatedMetadata.description
            tags := some updatedMetadata.tags
            customFields := some updatedMetadata.customFields
            lastModified := some oracle.isoNow }
        let entry : CdnCacheEntry := { value := existingAsset.value, meta := updatedMetadataObj }
        { s2 with cdnCache := mapPut s2.cdnCache ("asset:" ++ currentMetadata.path) entry }
      | none => s2
    let metadataSize := oracle.metaJsonLength currentMetadata
    let s4 := updateUserStorageUsage s3 user.id 0 metadataSize true now
    (Sum.inr ⟨updatedMetadata.version, none⟩, s4)

/-- Embedding of updateFileContent.  The empty-body rejection happens
before any write; the content snapshot is taken only when prior content
existed. -/
def updateFileContent (s : Store) (oracle : StoreOracle) (fileId : String)
    (user : JsUser) (newContent : List Nat) (now : Nat) :
    (ErrResp ⊕ UpdateOk) × Store :=
  match s.fileMeta fileId with
  | none => (Sum.inl ⟨404, "File not found"⟩, s)
  | some currentMetadata =>
    let currentContent := s.fileContent fileId
    let newSize := newContent.length
    if newSize = 0 then
      (Sum.inl ⟨400, "Content cannot be empty"⟩, s)
    else
      let s1 :=
        match currentContent with
        | some cc =>
          createFileVersion s oracle currentMetadata user ChangeType.content
            { contentSize := some cc.length, contentHash := some (oracle.contentHash cc) } now
        | none => s
      let s2 := { s1 with fileContent := mapPut s1.fileContent fileId newContent }
      let newMeta : CdnCacheMeta :=
        { contentType := some currentMetadata.mimeType
          size := some (toString newSize)
          lastModified := some oracle.isoNow }
      let newEntry : CdnCacheEntry := { value := newContent, meta := newMeta }
      let s3 := { s2 with cdnCache := mapPut s2.cdnCache ("asset:" ++ currentMetadata.path) newEntry }
      let updatedMetadata :=
        { currentMetadata with
          size := newSize
          modified := now
          version := currentMetadata.version + 1 }
      let s4 := { s3 with fileMeta := mapPut s3.fileMeta fileId updatedMetadata }
      let oldContentSize := (currentContent.map List.length).getD 0
      let s5 := updateUserStorageUsage s4 user.id oldContentSize newSize true now
      (Sum.inr ⟨updatedMetadata.version, some newSize⟩, s5)

/-- Success payload of restoreFileVersion. -/
structure RestoreOk where
  restoredVersion : Nat
  newVersion : Nat
  deriving Repr, DecidableEq

/-- Embedding of restoreFileVersion: back up the current state as a version
with changeType both, then write restored metadata only when the target
record carries metadata changes, and restored content only when it carries
content changes. -/
def restoreFileVersion (s : Store) (oracle : StoreOracle) (fileId : String)
    (version : Nat) (user : JsUser) (now : Nat) :
    (ErrResp ⊕ RestoreOk) × Store :=
  match s.versionRecords (fileId, version) with
  | none => (Sum.inl ⟨404, "Version not found"⟩, s)
  | some versionData =>
    match s.fileMeta fileId with
    | none => (Sum.inl ⟨404, "File not found"⟩, s)
    | some currentMetadata =>
      let s1 := createFileVersion s oracle currentMetadata user ChangeType.both
        { metadata := some currentMetadata.toPatch
          contentSize := some currentMetadata.size } now
      let s2 :=
        if versionData.changeType = ChangeType.metadata ∨ versionData.changeType = ChangeType.both then
          match versionData.changes.metadata with
          | some restorePatch =>
            let restoredMetadata :=
              { applyPatch currentMetadata restorePatch with
                version := currentMetadata.version + 1
                modified := now }
            { s1 with fileMeta := mapPut s1.fileMeta fileId restoredMetadata }
          | none => s1
        else s1
      let s3 :=
        if versionData.changeType = ChangeType.content ∨ versionData.changeType = ChangeType.both then
          match s2.versionContents (fileId, version) with
          | some versionContent =>
            { s2 with fileContent := mapPut s2.fileContent fileId versionContent }
          | none => s2
        else s2
      (Sum.inr ⟨version, currentMetadata.version + 1⟩, s3)

/-! ## Worker proxy cache layering (claim C3)

Embedding of the GET path of handleWorkerProxyRequest (lines 201-291)
together with getFromKVCache, storeInKVCache, deserializeKVResponse,
isCacheExpired, getWorkerCacheTTL, updateCacheStats and
optimizeWorkerResponse.  The persistent KV layer (CDN_METADATA plus
CDN_CACHE at worker cache keys) is the ProxyState; the ephemeral edge
cache (caches.default) and the origin worker fetch result are passed as
arguments, so a theorem can quantify over them to express that a layer was
never consulted.  Fire-and-forget writes take a Bool saying whether the
unawaited promise succeeded; its failure is logged and must not change the
response. -/

structure KVCacheMeta where
  expires : Nat
  size : Nat
  workerPath : String
  contentType : String
  deriving Repr, DecidableEq

structure KVCachedResponse where
  status : Nat
  statusText : String
  headers : List (String × String)
  body : List Nat
  timestamp : Nat
  deriving Repr, DecidableEq

structure ProxyState where
  cdnMetadataCache : String → Option KVCacheMeta
  cdnCacheStore : String → Option KVCachedResponse
  dailyStats : String → Option (Nat × Nat)

/-- Clock, date formatting and content digests used by the proxy path. -/
structure ProxyOracle where
  now : Nat
  today : String
  iso : Nat → String
  etag : List Nat → String

/-- Embedding of isCacheExpired. -/
def isCacheExpired (now expiresAt : Nat) : Bool :=
  decide (now > expiresAt)

/-- Embedding of getFromKVCache: the metadata record gates the body
record.  An absent or expired metadata record makes the lookup miss even
when the body is still retrievable. -/
def getFromKVCache (st : ProxyState) (o : ProxyOracle) (cacheKey : String) :
    Option KVCachedResponse :=
  match st.cdnMetadataCache cacheKey with
  | none => none
  | some metadata =>
    if isCacheExpired o.now metadata.expires then none
    else st.cdnCacheStore cacheKey

/-- Embedding of deserializeKVResponse: rebuild the response and stamp the
age headers. -/
def deserializeKVResponse (o : ProxyOracle) (cachedData : KVCachedResponse) : WResp :=
  let age := (((o.now : Int) - (cachedData.timestamp : Int)).fdiv 1000)
  let h1 := setHeader cachedData.headers "Age" (toString age)
  let h2 := setHeader h1 "X-Cache-Timestamp" (o.iso cachedData.timestamp)
  { status := cachedData.status
    statusText := cachedData.statusText
    headers := h2
    body := cachedData.body }

/-- Embedding of getWorkerCacheTTL. -/
def getWorkerCacheTTL (workerPath : String) : Nat :=
  if jsIncludes workerPath "/attachments/" || jsIncludes workerPath "/files/" then 3600
  else if jsIncludes workerPath "/api/" then 300
  else if jsIncludes workerPath "/static/" || jsIncludes workerPath "/assets/" then 86400
  else 1800

/-- Embedding of updateCacheStats: bump the daily request and bandwidth
counters. -/
def updateCacheStats (st : ProxyState) (o : ProxyOracle) (size : Nat) : ProxyState :=
  let today := (st.dailyStats o.today).getD (0, 0)
  { st with dailyStats := mapPut st.dailyStats o.today (today.1 + 1, today.2 + size) }

/-- Embedding of storeInKVCache: serialise the response, write the body and
the expiry metadata together under the same key and TTL, then track
statistics. -/
def storeInKVCache (st : ProxyState) (o : ProxyOracle) (cacheKey : String)
    (response : WResp) (workerPath : String) : ProxyState :=
  let cacheTTL := getWorkerCacheTTL workerPath
  let expiresAt := o.now + cacheTTL * 1000
  let responseData : KVCachedResponse :=
    { status := response.status
      statusText := response.statusText
      headers := response.headers
      body := response.body
      timestamp := o.now }
  let metadata : KVCacheMeta :=
    { expires := expiresAt
      size := response.body.length
      workerPath := workerPath
      contentType := jsOrStr ((getHeader response.headers "content-type").getD "") "unknown" }
  let st1 := { st with cdnCacheStore := mapPut st.cdnCacheStore cacheKey responseData }
  let st2 := { st1 with cdnMetadataCache := mapPut st1.cdnMetadataCache cacheKey metadata }
  updateCacheStats st2 o response.body.length

/-- Fold a list of header assignments, for the fixed header blocks of
addSecurityHeaders and getCORSHeaders. -/
def setHeaders (hs : List (String × String)) (kvs : List (String × String)) :
    List (String × String) :=
  kvs.foldl (fun acc kv => setHeader acc kv.1 kv.2) hs

/-- The header block of addSecurityHeaders. -/
def securityHeaders : List (String × String) :=
  [("X-Content-Type-Options", "nosniff"),
   ("X-Frame-Options", "DENY"),
   ("X-XSS-Protection", "1; mode=block"),
   ("Referrer-Policy", "strict-origin-when-cross-origin"),
   ("Access-Control-Expose-Headers", "Content-Length, Content-Range, ETag, Last-Modified, Accept-Ranges"),
   ("Accept-Ranges", "bytes"),
   ("Vary", "Accept-Encoding, Accept")]

/-- The header block of getCORSHeaders. -/
def corsHeaders : List (String × String) :=
  [("Access-Control-Allow-Origin", "*"),
   ("Access-Control-Allow-Methods", "GET, HEAD, OPTIONS, POST, PUT, DELETE, PATCH"),
   ("Access-Control-Allow-Headers", "*"),
   ("Access-Control-Allow-Credentials", "false"),
   ("Access-Control-Max-Age", "86400"),
   ("Cross-Origin-Resource-Policy", "cross-origin"),
   ("Cross-Origin-Embedder-Policy", "unsafe-none"),
   ("Cross-Origin-Opener-Policy", "unsafe-none")]

/-- Embedding of optimizeWorkerResponse: stamp security, CORS and proxy
headers, compute the body ETag, and short-circuit to 304 when the client
conditional header matches. -/
def optimizeWorkerResponse (o : ProxyOracle) (response : WResp)
    (workerName workerPath : String) (req : JsRequest) : WResp :=
  let h1 := setHeaders response.headers securityHeaders
  let h2 := setHeaders h1 corsHeaders
  let h3 := setHeaders h2
    [("X-Proxy-Worker", workerName), ("X-Proxy-Path", workerPath), ("X-CDN-Proxy", "true")]
  let etag := o.etag response.body
  let h4 := setHeader h3 "ETag" etag
  match req.headers "If-None-Match" with
  | some clientETag =>
    if clientETag = etag then { status := 304, statusText := "", headers := h4, body := [] }
    else { status := response.status, statusText := response.statusText, headers := h4, body := response.body }
  | none =>
    { status := response.status, statusText := response.statusText, headers := h4, body := response.body }

/-- JavaScript Response#ok: status in the 200 to 299 range. -/
def respOk (r : WResp) : Bool :=
  decide (200 ≤ r.status) && decide (r.status ≤ 299)

inductive CacheLayer
  | kvHit
  | edgeHit
  | originMiss
  deriving Repr, DecidableEq

/-- The response and layer computed by the GET path of
handleWorkerProxyRequest: persistent KV first, then the edge cache, then
the origin worker result. -/
def workerProxyResolve (st : ProxyState) (o : ProxyOracle)
    (edgeCache : String → Option WResp) (workerName workerPath : String)
    (req : JsRequest) (workerResponse : WResp) : WResp × CacheLayer :=
  let cacheKeyString := "worker:" ++ workerName ++ ":" ++ workerPath ++ ":" ++ hashRequest req
  match getFromKVCache st o cacheKeyString with
  | some kvCachedData =>
    let r0 := deserializeKVResponse o kvCachedData
    let h := setHeaders r0.headers
      [("X-Cache-Status", "KV-HIT"), ("X-Cache-Layer", "KV"), ("X-Proxy-Worker", workerName)]
    ({ r0 with headers := h }, CacheLayer.kvHit)
  | none =>
    match edgeCache (req.url ++ "-worker-proxy") with
    | some cachedResponse =>
      let h := setHeaders cachedResponse.headers
        [("X-Cache-Status", "CACHE-HIT"), ("X-Cache-Layer", "EdgeCache"), ("X-Proxy-Worker", workerName)]
      ({ cachedResponse with headers := h }, CacheLayer.edgeHit)
    | none =>
      if !(respOk workerResponse) then
        (workerResponse, CacheLayer.originMiss)
      else
        let optimized := optimizeWorkerResponse o workerResponse workerName workerPath req
        if optimized.status = 200 then
          let cacheTTL := getWorkerCacheTTL workerPath
          let h := setHeaders optimized.headers
            [("Cache-Control", "public, max-age=" ++ toString cacheTTL),
             ("X-Cache-Status", "MISS"), ("X-Cache-Layer", "Origin"),
             ("X-Proxy-Worker", workerName)]
          ({ optimized with headers := h }, CacheLayer.originMiss)
        else
          (optimized, CacheLayer.originMiss)

/-- Full GET step including the unawaited cache writes.  backfillOk says
whether the fire-and-forget KV backfill issued on an edge-cache hit
succeeded; missWriteOk the same for the KV write after an origin fetch.
Either failure is caught and logged, leaving the state untouched, and the
response is computed before and independently of them. -/
def workerProxyStep (st : ProxyState) (o : ProxyOracle)
    (edgeCache : String → Option WResp) (workerName workerPath : String)
    (req : JsRequest) (workerResponse : WResp)
    (backfillOk missWriteOk : Bool) : WResp × CacheLayer × ProxyState :=
  let cacheKeyString := "worker:" ++ workerName ++ ":" ++ workerPath ++ ":" ++ hashRequest req
  let (resp, layer) := workerProxyResolve st o edgeCache workerName workerPath req workerResponse
  match layer with
  | CacheLayer.kvHit => (resp, layer, st)
  | CacheLayer.edgeHit =>
    (resp, layer,
      if backfillOk then storeInKVCache st o cacheKeyString resp workerPath else st)
  | CacheLayer.originMiss =>
    (resp, layer,
      if resp.status = 200 ∧ missWriteOk
      then storeInKVCache st o cacheKeyString resp workerPath else st)

/-! ## Obfuscated asset paths (claim C8)

Embedding of generateComplexAssetPath (lines 3553-3613),
generateMetadataDirectoryStructure (3770-3800),
generateAdvancedObfuscatedDirectory (4029-4042), obfuscateFileExtension
(3857-3873) and the metadata analysis helpers they read.  Quantities that
the source derives from wall-clock randomness, cryptographic digests or
floating-point arithmetic (the three hex digests, the entropy score and
its printed form, and the assembled obfuscated filename, whose index
arithmetic runs on JavaScript floats) are oracle fields quantified over by
the theorems. -/

structure PathOracle where
  timestamp : Nat
  randomSeed : String
  primaryHash : String
  metadataHash : String
  combinedHash : String
  checksum : String
  entropyStr : String
  entropyGt3 : Bool
  assembledName : String
  extBase : String

/-- Embedding of calculateNameComplexity. -/
def calculateNameComplexity (fileName : String) : Nat :=
  let cs := fileName.toList
  let lenScore := if cs.length > 20 then 3 else if cs.length > 10 then 2 else 1
  let upperScore := if cs.any (fun c => 'A' ≤ c ∧ c ≤ 'Z') then 1 else 0
  let digitScore := if cs.any (fun c => '0' ≤ c ∧ c ≤ '9') then 1 else 0
  let specialScore := if cs.any (fun c => !c.isAlphanum && c ≠ '.' && c ≠ '-') then 2 else 0
  let wordScore := if countAlnumWords fileName > 2 then 1 else 0
  min (lenScore + upperScore + digitScore + specialScore + wordScore) 8
where
  /-- Length of split(non-alphanumeric) with empties dropped: the number of
  maximal ASCII-alphanumeric runs. -/
  countAlnumWords (s : String) : Nat :=
    (s.toList.foldl
      (fun acc c =>
        if c.isAlphanum && !acc.2 then (acc.1 + 1, true)
        else if c.isAlphanum then acc
        else (acc.1, false))
      ((0 : Nat), false)).1

/-- Embedding of categorizeSizeComplexity. -/
def categorizeSizeComplexity (sizeBytes : Nat) : String :=
  if sizeBytes < 1024 then "tiny"
  else if sizeBytes < 1024 * 100 then "small"
  else if sizeBytes < 1024 * 1024 then "medium"
  else if sizeBytes < 1024 * 1024 * 10 then "large"
  else "huge"

/-- Embedding of categorizeFileType. -/
def categorizeFileType (extension : String) : String :=
  let ext := extension.toLower
  if ext ∈ ["jpg", "jpeg", "png", "gif", "webp", "svg", "mp4", "mp3", "wav"] then "media"
  else if ext ∈ ["exe", "dll", "so", "bin", "dat"] then "binary"
  else if ext ∈ ["js", "ts", "css", "html", "json", "xml"] then "code"
  else if ext ∈ ["pdf", "doc", "txt", "md"] then "document"
  else if ext ∈ ["zip", "rar", "tar", "gz"] then "archive"
  else "unknown"

/-- The extension extraction at the top of generateComplexAssetPath:
split on dots, take the last piece, lowercase it, empty on a trailing
dot. -/
def jsFileExtension (fileName : String) : String :=
  ((fileName.splitOn ".").getLastD "").toLower

/-- The sizeFactors lookup-or-2 of calculateMetadataComplexity. -/
def sizeFactor (sizeCategory : String) : Nat :=
  if sizeCategory = "tiny" then 1
  else if sizeCategory = "small" then 2
  else if sizeCategory = "medium" then 3
  else if sizeCategory = "large" then 4
  else if sizeCategory = "huge" then 5
  else if sizeCategory = "unknown" then 2
  else 2

/-- The typeFactors lookup-or-2 of calculateMetadataComplexity. -/
def typeFactor (typeCategory : String) : Nat :=
  if typeCategory = "binary" then 3
  else if typeCategory = "media" then 4
  else if typeCategory = "document" then 2
  else if typeCategory = "code" then 3
  else if typeCategory = "archive" then 5
  else if typeCategory = "unknown" then 2
  else 2

/-- Embedding of calculateMetadataComplexity over the analysed features.
The three Bool arguments are the special-character, word-count and
digit-ratio bonus conditions of analyzeFileMetadata; entropyGt3 is the
floating-point comparison entropyLevel > 3. -/
def calculateMetadataComplexity (nameComplexity : Nat) (sizeCategory typeCategory : String)
    (hasSpecialChars wordCountGt3 digitRatioGt03 entropyGt3 : Bool) : Nat :=
  let c1 := 1 + min nameComplexity 5
  let c2 := c1 + sizeFactor sizeCategory
  let c3 := c2 + typeFactor typeCategory
  let c4 := if hasSpecialChars then c3 + 2 else c3
  let c5 := if wordCountGt3 then c4 + 1 else c4
  let c6 := if digitRatioGt03 then c5 + 1 else c5
  let c7 := if entropyGt3 then c6 + 2 else c6
  min c7 10

/-- Embedding of generateAdvancedObfuscatedDirectory: fixed prefix, middle
and suffix vocabularies indexed by the character-code hash of the input,
wrapped around a hash fragment and the base-36 hash. -/
def generateAdvancedObfuscatedDirectory (input hashSegment : String) : String :=
  let hash := charCodeSum input
  let base := toBase36 hash
  let dirPrefixes := ["serix", "sys", "lib", "bin", "opt", "var", "tmp", "usr", "etc", "proc", "dev", "mnt", "srv"]
  let dirSuffixes := ["v2", "v3", "v4", "cache", "data", "store", "repo", "arch", "dist", "build", "core", "temp", "meta", "conf", "log"]
  let dirMiddle := ["x", "z", "q", "k", "j", "w", "v", "f", "g", "h", "p", "r", "s", "e", "i"]
  let p := dirPrefixes.getD (hash % dirPrefixes.length) ""
  let suf := dirSuffixes.getD ((hash * 7) % dirSuffixes.length) ""
  let mid := dirMiddle.getD ((hash * 13) % dirMiddle.length) ""
  p ++ hashSegment ++ mid ++ base ++ suf

/-- Embedding of generateMetadataDirectoryStructure: three feature-derived
directories, then one more per complexity level beyond three. -/
def generateMetadataDirectoryStructure (o : PathOracle) (typeCategory sizeCategory : String)
    (wordCount : Nat) (pathComplexity : Nat) (uploadType : String) : List String :=
  let d0 := generateAdvancedObfuscatedDirectory typeCategory (jsSubstring o.primaryHash 0 4)
  let d1 := generateAdvancedObfuscatedDirectory uploadType (jsSubstring o.metadataHash 0 4)
  let d2 := generateAdvancedObfuscatedDirectory sizeCategory (jsSubstring o.primaryHash 8 12)
  let rest := (List.range' 3 (pathComplexity - 3)).map fun i =>
    let hashOffset := (i * 4) % (o.primaryHash.toList.length - 4)
    let metaOffset := (i * 3) % (o.metadataHash.toList.length - 3)
    let dirSeed := o.entropyStr ++ toString i ++ toString wordCount
    let hashSegment := jsSubstring o.primaryHash hashOffset (hashOffset + 4)
    let metaSegment := jsSubstring o.metadataHash metaOffset (metaOffset + 3)
    generateAdvancedObfuscatedDirectory dirSeed (hashSegment ++ metaSegment)
  d0 :: d1 :: d2 :: rest

/-- Embedding of obfuscateFileExtension.  extBase is the base-36 rendering
of extHash times the float metadata influence, supplied by the oracle. -/
def obfuscateFileExtension (extension : String) (o : PathOracle) : String :=
  if extension = "" then "dat"
  else
    let part1 := jsSubstring o.extBase 0 2
    let part2 := jsSubstring extension 0 (min extension.toList.length 2)
    let part3 := jsOrStr (jsSubstring o.extBase 2 4) "x"
    (part1 ++ part2 ++ part3).toLower

/-- The word count of analyzeFileMetadata, shared with the name-complexity
score. -/
def metadataWordCount (fileName : String) : Nat :=
  calculateNameComplexity.countAlnumWords fileName

/-- The hasSpecialChars test of analyzeFileMetadata. -/
def metadataHasSpecialChars (fileName : String) : Bool :=
  fileName.toList.any fun c => !c.isAlphanum && c ≠ '.' && c ≠ '-'

/-- The digitRatio > 0.3 bonus test, as the exact rational comparison of
digit count against three tenths of the length (false on the empty name,
where the ratio is NaN). -/
def metadataDigitRatioGt03 (fileName : String) : Bool :=
  decide (10 * (fileName.toList.filter fun c => '0' ≤ c ∧ c ≤ '9').length > 3 * fileName.toList.length)

/-- The directory list minted by one run of generateComplexAssetPath. -/
def assetPathDirectories (fileName : String) (bufferLen : Nat) (uploadType : String)
    (o : PathOracle) : List String :=
  let fileExtension := jsFileExtension fileName
  let nameComplexity := calculateNameComplexity fileName
  let sizeCategory := categorizeSizeComplexity bufferLen
  let typeCategory := categorizeFileType fileExtension
  let metadataComplexity := calculateMetadataComplexity nameComplexity sizeCategory typeCategory
    (metadataHasSpecialChars fileName) (decide (metadataWordCount fileName > 3))
    (metadataDigitRatioGt03 fileName) o.entropyGt3
  let pathComplexity := min (max metadataComplexity 3) 8
  generateMetadataDirectoryStructure o typeCategory sizeCategory
    (metadataWordCount fileName) pathComplexity uploadType

/-- Embedding of generateComplexAssetPath: analyse the name and buffer,
pick the 3-8 nesting depth, build the obfuscated directories and assemble
the final path under /prod with the streaming routing suffix.  The
userPath argument only feeds the primary hash source and so reaches the
result only through the oracle digests. -/
def generateComplexAssetPath (fileName : String) (bufferLen : Nat) (userPath : String)
    (uploadType : String) (o : PathOracle) : String :=
  let _ := userPath
  let fileExtension := jsFileExtension fileName
  let directories := assetPathDirectories fileName bufferLen uploadType o
  let obfuscatedName := o.assembledName
  let continent := "na"
  "/prod/" ++ continent ++ "/" ++ String.intercalate "/" directories ++ "/" ++
    obfuscatedName ++ obfuscateFileExtension fileExtension o ++ "/object/live.m3u8"

/-! ## Header lemmas -/

lemma getHeader_setHeader_same (hs : List (String × String)) (k v : String) :
    getHeader (setHeader hs k v) k = some v := by
  simp [getHeader, setHeader]

lemma getHeader_setHeader_of_ne (hs : List (String × String)) {k k' : String} (v : String)
    (h : k ≠ k') : getHeader (setHeader hs k' v) k = getHeader hs k := by
  simp only [getHeader, setHeader]
  rw [List.find?_cons_of_neg _ (by simp [Ne.symm h]), List.find?_filter]
  congr 2
  funext a
  by_cases ha : a.1 = k
  · simp [ha, h]
  · simp [ha]

/-- C5: on a buffered media body, a parsed range with start or end at or
past the file size yields 416 with a Content-Range of the form
bytes */size, while a range fully inside bounds yields 206 with the exact
Content-Range and Content-Length headers and a body that is precisely the
bytes from start to end of the buffer. -/
theorem range_request_bounds_correct (body : List Nat) (startVal endVal : Nat)
    (headers : List (String × String)) (contentType : String)
    (_hmedia : isMediaFile contentType = true) :
    ((startVal ≥ body.length ∨ endVal ≥ body.length) →
      (handleRangeRequest body startVal endVal headers contentType).status = 416 ∧
      getHeader (handleRangeRequest body startVal endVal headers contentType).headers
          "Content-Range" = some ("bytes */" ++ toString body.length)) ∧
    (startVal ≤ endVal → endVal < body.length →
      (handleRangeRequest body startVal endVal headers contentType).status = 206 ∧
      getHeader (handleRangeRequest body startVal endVal headers contentType).headers
          "Content-Range" =
        some ("bytes " ++ toString startVal ++ "-" ++ toString endVal ++ "/" ++
          toString body.length) ∧
      getHeader (handleRangeRequest body startVal endVal headers contentType).headers
          "Content-Length" = some (toString (endVal - startVal + 1)) ∧
      (handleRangeRequest body startVal endVal headers contentType).body.length =
        endVal - startVal + 1 ∧
      (∀ i, i < endVal - startVal + 1 →
        (handleRangeRequest body startVal endVal headers contentType).body[i]? =
          body[startVal + i]?)) := by
  constructor
  · intro hout
    have hcond : startVal ≥ body.length ∨ endVal ≥ body.length := hout
    simp only [handleRangeRequest, if_pos hcond]
    exact ⟨by trivial, getHeader_setHeader_same _ _ _⟩
  · intro hse hlt
    have hcond : ¬ (startVal ≥ body.length ∨ endVal ≥ body.length) := by
      push_neg
      exact ⟨Nat.lt_of_le_of_lt hse hlt, hlt⟩
    simp only [handleRangeRequest, if_neg hcond]
    refine ⟨by trivial, ?_, ?_, ?_, ?_⟩
    · rw [getHeader_setHeader_of_ne _ _ (by decide), getHeader_setHeader_of_ne _ _ (by decide),
        getHeader_setHeader_same]
    · rw [getHeader_setHeader_of_ne _ _ (by decide), getHeader_setHeader_same]
    · simp only [List.length_take, List.length_drop]
      omega
    · intro i hi
      simp only [List.getElem?_take, List.getElem?_drop]
      rw [if_pos (by omega)]

/-- C5 witness: a three-byte video buffer with range 1-2 served as 206
carrying exactly those bytes, and range 5-7 rejected as 416. -/
theorem range_request_bounds_correct_witness :
    isMediaFile "video/mp4" = true ∧
    ((5 ≥ ([10, 20, 30] : List Nat).length ∨ 7 ≥ ([10, 20, 30] : List Nat).length) →
      (handleRangeRequest [10, 20, 30] 5 7 [] "video/mp4").status = 416 ∧
      getHeader (handleRangeRequest [10, 20, 30] 5 7 [] "video/mp4").headers
          "Content-Range" = some ("bytes */" ++ toString ([10, 20, 30] : List Nat).length)) := by
  refine ⟨by decide, ?_⟩
  exact (range_request_bounds_correct [10, 20, 30] 5 7 [] "video/mp4" (by decide)).1

/-- C6: a plain user at 100 of 100 files is refused with the exact reason
string and the upload endpoint gate turns that refusal into a 403; the
file-count limit is checked before the storage limit and short-circuits
it, and the admin sentinel skips every check. -/
theorem quota_checks_order_and_limits :
    (∀ storage : Nat,
      checkUserQuota "user" 100 storage =
        ⟨false, some "File limit exceeded (100/100)"⟩ ∧
      uploadRequestGate true (checkUserQuota "user" 100 storage) =
        some ⟨403, "File limit exceeded (100/100)"⟩) ∧
    (∀ (role : String) (files storage : Nat),
      (quotaFor (if role = "" then "user" else role)).maxFiles > 0 →
      (files : Int) ≥ (quotaFor (if role = "" then "user" else role)).maxFiles →
      checkUserQuota role files storage =
        ⟨false, some ("File limit exceeded (" ++ toString files ++ "/" ++
          toString (quotaFor (if role = "" then "user" else role)).maxFiles ++ ")")⟩) ∧
    (∀ files storage : Nat, checkUserQuota "admin" files storage = ⟨true, none⟩) := by
  refine ⟨?_, ?_, ?_⟩
  · intro storage
    exact ⟨rfl, rfl⟩
  · intro role files storage hpos hge
    show checkQuotaLimits (quotaFor (if role = "" then "user" else role)) files storage = _
    set q := quotaFor (if role = "" then "user" else role) with hq
    unfold checkQuotaLimits
    split_ifs with h1 h2
    · exfalso
      rw [h1.1] at hpos
      omega
    · rfl
    · exact absurd ⟨hpos, hge⟩ h2
    · exact absurd ⟨hpos, hge⟩ h2
  · intro files storage
    rfl

/-- C6 witness: the concrete 100 of 100 scenario with zero storage, and
the general file-limit clause applied to a premium user at the 1000-file
limit. -/
theorem quota_checks_order_and_limits_witness :
    checkUserQuota "user" 100 0 = ⟨false, some "File limit exceeded (100/100)"⟩ ∧
    checkUserQuota "premium" 1000 0 =
      ⟨false, some "File limit exceeded (1000/1000)"⟩ := by
  constructor
  · exact (quota_checks_order_and_limits.1 0).1
  · exact quota_checks_order_and_limits.2.1 "premium" 1000 0 (by decide) (by decide)

/-- C9: the cache key of hashRequest depends only on the method, the path
with query string, and the authorization, accept and accept-language
header values; any two requests agreeing there hash identically whatever
their bodies or other headers. -/
theorem hash_request_depends_only_on_key_inputs (r1 r2 : JsRequest)
    (hm : r1.method = r2.method) (hp : r1.path = r2.path) (hs : r1.search = r2.search)
    (hh : ∀ h ∈ ["authorization", "accept", "accept-language"],
      (r1.headers h).getD "" = (r2.headers h).getD "") :
    hashRequest r1 = hashRequest r2 := by
  have h1 := hh "authorization" (by simp)
  have h2 := hh "accept" (by simp)
  have h3 := hh "accept-language" (by simp)
  simp only [hashRequest, hm, hp, hs, List.map_cons, List.map_nil, h1, h2, h3]

/-- C9 witness: two requests with the same method, target and relevant
headers but different bodies and an unrelated extra header hash to the
same key. -/
theorem hash_request_depends_only_on_key_inputs_witness :
    hashRequest
      { method := "GET", url := "https://a/x?q=1", path := "/x", search := "?q=1"
        headers := fun h => if h = "accept" then some "text/html" else none
        body := [] } =
    hashRequest
      { method := "GET", url := "https://b/x?q=1", path := "/x", search := "?q=1"
        headers := fun h =>
          if h = "accept" then some "text/html"
          else if h = "x-extra" then some "zzz" else none
        body := [1, 2, 3] } := by
  apply hash_request_depends_only_on_key_inputs
  · rfl
  · rfl
  · rfl
  · intro h hmem
    fin_cases hmem <;> rfl

/-! ## Sortedness facts for the upload tracker -/

lemma newestFirst_trans (a b c : UserUpload) :
    newestFirst a b = true → newestFirst b c = true → newestFirst a c = true := by
  simp only [newestFirst, decide_eq_true_eq]
  omega

lemma newestFirst_total (a b : UserUpload) :
    (newestFirst a b || newestFirst b a) = true := by
  simp only [newestFirst, Bool.or_eq_true, decide_eq_true_eq]
  omega

/-- C10: after tracking an upload the stored list has at most 1000
entries, is sorted newest first by createdAt, and together with the
discarded entries is a permutation of the old list plus the new entry,
every kept entry being at least as recent as every discarded one. -/
theorem track_user_upload_keeps_most_recent (existing : List UserUpload) (entry : UserUpload) :
    (trackUserUpload existing entry).length ≤ 1000 ∧
    (trackUserUpload existing entry).Pairwise (fun a b => b.createdAt ≤ a.createdAt) ∧
    (trackUserUpload existing entry ++ trackUserUploadDropped existing entry).Perm
      (existing ++ [entry]) ∧
    (∀ x ∈ trackUserUpload existing entry, ∀ y ∈ trackUserUploadDropped existing entry,
      y.createdAt ≤ x.createdAt) := by
  have hsorted := List.sorted_mergeSort newestFirst_trans newestFirst_total
    (existing ++ [entry])
  have hsorted' : ((existing ++ [entry]).mergeSort newestFirst).Pairwise
      (fun a b => b.createdAt ≤ a.createdAt) := by
    refine hsorted.imp ?_
    intro a b hab
    simp only [newestFirst, decide_eq_true_eq] at hab
    exact hab
  have hsplit : trackUserUpload existing entry ++ trackUserUploadDropped existing entry =
      (existing ++ [entry]).mergeSort newestFirst := by
    simp [trackUserUpload, trackUserUploadDropped]
  refine ⟨?_, ?_, ?_, ?_⟩
  · exact List.length_take_le 1000 _
  · exact hsorted'.take
  · rw [hsplit]
    exact List.mergeSort_perm _ _
  · have := hsplit ▸ hsorted'
    have hx := (List.pairwise_append.mp this).2.2
    intro x hx1 y hy1
    exact hx x hx1 y hy1

/-! ## Map lemmas -/

lemma mapPut_same {α β : Type} [DecidableEq α] (f : α → Option β) (k : α) (v : β) :
    mapPut f k v k = some v := by
  simp [mapPut]

lemma mapPut_other {α β : Type} [DecidableEq α] (f : α → Option β) {k k' : α} (v : β)
    (h : k' ≠ k) : mapPut f k v k' = f k' := by
  simp [mapPut, h]

lemma mapDel_same {α β : Type} [DecidableEq α] (f : α → Option β) (k : α) :
    mapDel f k k = none := by
  simp [mapDel]

lemma mapDel_other {α β : Type} [DecidableEq α] (f : α → Option β) {k k' : α}
    (h : k' ≠ k) : mapDel f k k' = f k' := by
  simp [mapDel, h]

/-! ## Cleanup-loop lemmas -/

lemma foldl_delVersionStep_fileMeta (fileId : String) (l : List Nat) (st : Store) :
    (l.foldl (delVersionStep fileId) st).fileMeta = st.fileMeta := by
  induction l generalizing st with
  | nil => rfl
  | cons hd tl ih => simp [List.foldl_cons, ih, delVersionStep]

lemma foldl_delVersionStep_fileContent (fileId : String) (l : List Nat) (st : Store) :
    (l.foldl (delVersionStep fileId) st).fileContent = st.fileContent := by
  induction l generalizing st with
  | nil => rfl
  | cons hd tl ih => simp [List.foldl_cons, ih, delVersionStep]

lemma foldl_delVersionStep_cdnCache (fileId : String) (l : List Nat) (st : Store) :
    (l.foldl (delVersionStep fileId) st).cdnCache = st.cdnCache := by
  induction l generalizing st with
  | nil => rfl
  | cons hd tl ih => simp [List.foldl_cons, ih, delVersionStep]

lemma foldl_delVersionStep_storageUsage (fileId : String) (l : List Nat) (st : Store) :
    (l.foldl (delVersionStep fileId) st).storageUsage = st.storageUsage := by
  induction l generalizing st with
  | nil => rfl
  | cons hd tl ih => simp [List.foldl_cons, ih, delVersionStep]

lemma foldl_delVersionStep_versionIndex (fileId : String) (l : List Nat) (st : Store) :
    (l.foldl (delVersionStep fileId) st).versionIndex = st.versionIndex := by
  induction l generalizing st with
  | nil => rfl
  | cons hd tl ih => simp [List.foldl_cons, ih, delVersionStep]

lemma foldl_delVersionStep_records_none (fileId : String) (l : List Nat) (st : Store)
    (k : String × Nat) (h : st.versionRecords k = none) :
    (l.foldl (delVersionStep fileId) st).versionRecords k = none := by
  induction l generalizing st with
  | nil => exact h
  | cons hd tl ih =>
    refine ih _ ?_
    by_cases hk : k = (fileId, hd)
    · simp [delVersionStep, hk, mapDel_same]
    · simpa [delVersionStep, mapDel_other _ hk] using h

lemma foldl_delVersionStep_contents_none (fileId : String) (l : List Nat) (st : Store)
    (k : String × Nat) (h : st.versionContents k = none) :
    (l.foldl (delVersionStep fileId) st).versionContents k = none := by
  induction l generalizing st with
  | nil => exact h
  | cons hd tl ih =>
    refine ih _ ?_
    by_cases hk : k = (fileId, hd)
    · simp [delVersionStep, hk, mapDel_same]
    · simpa [delVersionStep, mapDel_other _ hk] using h

lemma foldl_delVersionStep_deletes (fileId : String) (l : List Nat) (st : Store)
    (v : Nat) (hv : v ∈ l) :
    (l.foldl (delVersionStep fileId) st).versionRecords (fileId, v) = none ∧
    (l.foldl (delVersionStep fileId) st).versionContents (fileId, v) = none := by
  induction l generalizing st with
  | nil => cases hv
  | cons hd tl ih =>
    rw [List.foldl_cons]
    rcases List.mem_cons.mp hv with heq | hmem
    · subst heq
      constructor
      · apply foldl_delVersionStep_records_none
        simp [delVersionStep, mapDel_same]
      · apply foldl_delVersionStep_contents_none
        simp [delVersionStep, mapDel_same]
    · exact ih _ hmem

/-! ## Projection lemmas for createFileVersion -/

lemma createFileVersion_fileMeta (s : Store) (oracle : StoreOracle) (meta : FileMetadata)
    (user : JsUser) (ct : ChangeType) (ch : VersionChanges) (now : Nat) :
    (createFileVersion s oracle meta user ct ch now).fileMeta = s.fileMeta := by
  unfold createFileVersion
  dsimp only
  repeat' split
  all_goals simp [foldl_delVersionStep_fileMeta]

lemma createFileVersion_fileContent (s : Store) (oracle : StoreOracle) (meta : FileMetadata)
    (user : JsUser) (ct : ChangeType) (ch : VersionChanges) (now : Nat) :
    (createFileVersion s oracle meta user ct ch now).fileContent = s.fileContent := by
  unfold createFileVersion
  dsimp only
  repeat' split
  all_goals simp [foldl_delVersionStep_fileContent]

lemma createFileVersion_cdnCache (s : Store) (oracle : StoreOracle) (meta : FileMetadata)
    (user : JsUser) (ct : ChangeType) (ch : VersionChanges) (now : Nat) :
    (createFileVersion s oracle meta user ct ch now).cdnCache = s.cdnCache := by
  unfold createFileVersion
  dsimp only
  repeat' split
  all_goals simp [foldl_delVersionStep_cdnCache]

lemma createFileVersion_storageUsage (s : Store) (oracle : StoreOracle) (meta : FileMetadata)
    (user : JsUser) (ct : ChangeType) (ch : VersionChanges) (now : Nat) :
    (createFileVersion s oracle meta user ct ch now).storageUsage = s.storageUsage := by
  unfold createFileVersion
  dsimp only
  repeat' split
  all_goals simp [foldl_delVersionStep_storageUsage]

lemma foldl_delVersionStep_records_preserve (fileId : String) (l : List Nat) (st : Store)
    (k : String × Nat) :
    (∀ v ∈ l, k ≠ (fileId, v)) →
    (l.foldl (delVersionStep fileId) st).versionRecords k = st.versionRecords k := by
  induction l generalizing st with
  | nil =>
    intro _
    rfl
  | cons hd tl ih =>
    intro h
    rw [List.foldl_cons, ih _ (fun v hv => h v (List.mem_cons_of_mem _ hv))]
    exact mapDel_other _ (h hd (List.mem_cons_self _ _))

lemma natDescLe_trans (a b c : Nat) :
    (fun a b : Nat => decide (b ≤ a)) a b = true →
    (fun a b : Nat => decide (b ≤ a)) b c = true →
    (fun a b : Nat => decide (b ≤ a)) a c = true := by
  simp only [decide_eq_true_eq]
  omega

lemma natDescLe_total (a b : Nat) :
    ((fun a b : Nat => decide (b ≤ a)) a b || (fun a b : Nat => decide (b ≤ a)) b a) = true := by
  simp only [Bool.or_eq_true, decide_eq_true_eq]
  omega

/-- A version number at least as large as every index entry is never
trimmed out: after the descending sort it sits in the first position, so
it cannot land beyond the 50-entry cut.  This is exactly the situation of
a live version being snapshotted over its own, possibly full, history. -/
lemma sortDesc_max_notin_drop (idx : List Nat) (v : Nat)
    (hnotmem : v ∉ idx) (hmax : ∀ n ∈ idx, n ≤ v) :
    v ∉ (sortDescNat (idx ++ [v])).drop 50 := by
  intro hvdrop
  have hperm : (sortDescNat (idx ++ [v])).Perm (idx ++ [v]) := List.mergeSort_perm _ _
  have hsorted : (sortDescNat (idx ++ [v])).Pairwise (fun a b : Nat => b ≤ a) := by
    refine (List.sorted_mergeSort natDescLe_trans natDescLe_total (idx ++ [v])).imp ?_
    intro a b hab
    simpa using hab
  have hsplit := List.take_append_drop 50 (sortDescNat (idx ++ [v]))
  have hcross := (List.pairwise_append.mp (hsplit ▸ hsorted)).2.2
  have hall : ∀ a ∈ (sortDescNat (idx ++ [v])).take 50, v = a := by
    intro a ha
    have h1 : v ≤ a := hcross a ha v hvdrop
    have h2 : a ≤ v := by
      have hmem : a ∈ idx ++ [v] :=
        (List.Perm.mem_iff hperm).mp (List.mem_of_mem_take ha)
      rcases List.mem_append.mp hmem with h | h
      · exact hmax a h
      · simp only [List.mem_singleton] at h
        omega
    omega
  have hlen : 50 < (sortDescNat (idx ++ [v])).length := by
    by_contra hle
    push_neg at hle
    rw [List.drop_eq_nil_of_le hle] at hvdrop
    cases hvdrop
  have htakelen : ((sortDescNat (idx ++ [v])).take 50).length = 50 := by
    rw [List.length_take]
    omega
  have hctake : ((sortDescNat (idx ++ [v])).take 50).count v = 50 := by
    rw [List.count_eq_length.mpr hall, htakelen]
  have hcdrop : 0 < ((sortDescNat (idx ++ [v])).drop 50).count v :=
    List.count_pos_iff.mpr hvdrop
  have hcone : (sortDescNat (idx ++ [v])).count v = 1 := by
    rw [hperm.count_eq, List.count_append, List.count_eq_zero.mpr hnotmem]
    simp
  have hcsum : (sortDescNat (idx ++ [v])).count v =
      ((sortDescNat (idx ++ [v])).take 50).count v +
        ((sortDescNat (idx ++ [v])).drop 50).count v := by
    conv_lhs => rw [← hsplit]
    rw [List.count_append]
  omega

/-- The version record written by createFileVersion is retrievable
afterwards whenever no retained index entry exceeds the version number
being filed — the invariant every reachable file history satisfies,
including one already at the 50-version cap. -/
lemma createFileVersion_record_lookup (s : Store) (oracle : StoreOracle) (meta : FileMetadata)
    (user : JsUser) (ct : ChangeType) (ch : VersionChanges) (now : Nat)
    (hmax : ∀ n ∈ (s.versionIndex meta.id).getD [], n ≤ meta.version) :
    (createFileVersion s oracle meta user ct ch now).versionRecords (meta.id, meta.version) =
      some { version := meta.version
             timestamp := now
             author := jsOrStr user.name user.email
             authorId := user.id
             changeType := ct
             changes := ch
             storage := { contentBytes :=
                            (((if ct = ChangeType.content ∨ ct = ChangeType.both
                               then s.fileContent meta.id else none)).map List.length).getD 0
                          metadataBytes := oracle.metaJsonLength meta } } := by
  unfold createFileVersion
  dsimp only
  by_cases hmem : meta.version ∈ (s.versionIndex meta.id).getD []
  · rw [if_pos hmem]
    exact mapPut_same _ _ _
  · rw [if_neg hmem]
    rw [foldl_delVersionStep_records_preserve _ _ _ _ ?_]
    · exact mapPut_same _ _ _
    · intro w hw heq
      have hvw : meta.version = w := congrArg Prod.snd heq
      rw [← hvw] at hw
      exact sortDesc_max_notin_drop _ _ hmem hmax hw

/-- createFileVersion leaves the version records untouched apart from the
one it writes, whenever the index is not already full. -/
lemma createFileVersion_records_no_touch (s : Store) (oracle : StoreOracle)
    (meta : FileMetadata) (user : JsUser) (ct : ChangeType) (ch : VersionChanges) (now : Nat) :
    ∀ k, k ≠ (meta.id, meta.version) →
      ((s.versionIndex meta.id).getD []).length ≤ 49 →
      (createFileVersion s oracle meta user ct ch now).versionRecords k =
        s.versionRecords k := by
  intro k hk hidx
  unfold createFileVersion
  have hnil : ∀ x : Nat,
      (sortDescNat ((s.versionIndex meta.id).getD [] ++ [x])).drop 50 = [] := by
    intro x
    apply List.drop_eq_nil_of_le
    have hlen := @List.length_mergeSort Nat (fun a b => decide (b ≤ a))
      ((s.versionIndex meta.id).getD [] ++ [x])
    simp only [sortDescNat, hlen, List.length_append, List.length_cons, List.length_nil]
    omega
  dsimp only
  repeat' split
  all_goals
    first
    | contradiction
    | (rw [hnil]
       simp only [List.foldl_nil]
       exact mapPut_other _ _ hk)
    | exact mapPut_other _ _ hk

/-! ## Claim C1: the metadata version snapshot

updateFileMetadata passes the literal object with the incoming update data
as the changes payload of the version record, so the stored
changes.metadata is the patch, not the pre-update snapshot that
restoreFileVersion later spreads back over the file.  The following
concrete run exhibits this on a file at version 3. -/

def c1File : FileMetadata :=
  { id := "f1", name := "report", originalName := "report.txt", path := "p/q"
    mimeType := "text/plain", size := 5, owner := "Alice", ownerId := "u1"
    created := 100, modified := 200, version := 3, isPublic := false
    tags := [], description := "old description", customFields := [] }

def c1Patch : MetaPatch := { description := some "new description" }

def c1User : JsUser := { id := "u1", name := "Alice", email := "alice@example.com", role := "user" }

def c1Oracle : StoreOracle :=
  { contentHash := fun _ => "hash", metaJsonLength := fun _ => 7, isoNow := "2026-01-01" }

def c1Store : Store :=
  { fileMeta := fun k => if k = "f1" then some c1File else none
    fileContent := fun _ => none
    versionRecords := fun _ => none
    versionContents := fun _ => none
    versionIndex := fun _ => none
    cdnCache := fun _ => none
    storageUsage := fun _ => none }

def c1Run : (ErrResp ⊕ UpdateOk) × Store :=
  updateFileMetadata c1Store c1Oracle "f1" c1User c1Patch 300

/-- C1: updating metadata on a file at version 3 creates the version
record numbered 3 with changeType metadata and bumps the live version to
4, as claimed, but the changes.metadata stored in that record is the
incoming patch and differs from the pre-update metadata snapshot. -/
theorem metadata_version_snapshot_stores_patch :
    ((c1Run.2.fileMeta "f1").map FileMetadata.version = some 4) ∧
    ((c1Run.2.versionRecords ("f1", 3)).map FileVersion.version = some 3) ∧
    ((c1Run.2.versionRecords ("f1", 3)).map FileVersion.changeType = some ChangeType.metadata) ∧
    ((c1Run.2.versionRecords ("f1", 3)).map (fun r => r.changes.metadata) = some (some c1Patch)) ∧
    c1Patch ≠ c1File.toPatch ∧
    c1Patch.description ≠ some c1File.description := by
  refine ⟨?_, ?_, ?_, ?_, by decide, by decide⟩ <;>
    simp [c1Run, c1Store, c1File, c1Patch, c1User, c1Oracle, updateFileMetadata,
      createFileVersion, updateUserStorageUsage, sortDescNat, List.mergeSort, mapPut,
      jsOrStr, applyPatch, delVersionStep]

/-! ## Claim C2: restore and the version counter

restoreFileVersion writes a bumped metadata record only when the restored
version record carries metadata changes.  Restoring a content-only version
leaves the stored live version untouched while the response body still
reports version plus one. -/

def c2File : FileMetadata :=
  { id := "f2", name := "clip", originalName := "clip.bin", path := "p/r"
    mimeType := "application/octet-stream", size := 2, owner := "Alice", ownerId := "u1"
    created := 100, modified := 200, version := 5, isPublic := false
    tags := [], description := "", customFields := [] }

def c2Record : FileVersion :=
  { version := 2, timestamp := 50, author := "Alice", authorId := "u1"
    changeType := ChangeType.content
    changes := { contentSize := some 3, contentHash := some "h0" }
    storage := { contentBytes := 3, metadataBytes := 7 } }

def c2Store : Store :=
  { fileMeta := fun k => if k = "f2" then some c2File else none
    fileContent := fun k => if k = "f2" then some [9, 9] else none
    versionRecords := fun k => if k = ("f2", 2) then some c2Record else none
    versionContents := fun k => if k = ("f2", 2) then some [1, 2, 3] else none
    versionIndex := fun k => if k = "f2" then some [2] else none
    cdnCache := fun _ => none
    storageUsage := fun _ => none }

def c2Run : (ErrResp ⊕ RestoreOk) × Store :=
  restoreFileVersion c2Store c1Oracle "f2" 2 c1User 400

/-- C2: restoring an existing content-only version of an existing file
leaves the stored live version number exactly where it was, 5, while the
response claims the new version is 6; the post-restore stored version is
not strictly greater than the pre-restore one. -/
theorem restore_content_only_keeps_stored_version :
    ((c2Store.fileMeta "f2").map FileMetadata.version = some 5) ∧
    ((c2Run.2.fileMeta "f2").map FileMetadata.version = some 5) ∧
    (c2Run.1 = Sum.inr { restoredVersion := 2, newVersion := 6 }) ∧
    ((c2Run.2.fileContent "f2") = some [1, 2, 3]) := by
  refine ⟨by decide, ?_, ?_, ?_⟩ <;>
    simp [c2Run, c2Store, c2File, c2Record, c1User, c1Oracle, restoreFileVersion,
      createFileVersion, sortDescNat, List.mergeSort, List.merge, mapPut, jsOrStr,
      applyPatch, FileMetadata.toPatch, delVersionStep]

/-! ## Claim C7: empty content updates commit nothing -/

/-- C7: an empty replacement body makes updateFileContent fail with 400
and return the state unchanged — with no condition on the version history,
so no version snapshot, content write, cache write, metadata write or
version bump happens; with a non-empty body the live version increments
unconditionally, no snapshot is taken when no prior content existed, and
when prior content existed its size and hash are snapshotted into the
retrievable version record on every history whose retained version numbers
do not exceed the live version — the invariant the store maintains,
including for a file already at the 50-version cap. -/
theorem update_content_empty_rejected (s : Store) (oracle : StoreOracle)
    (fileId : String) (user : JsUser) (newContent : List Nat) (now : Nat)
    (meta : FileMetadata) (hmeta : s.fileMeta fileId = some meta)
    (hid : meta.id = fileId) :
    (newContent = [] →
      (updateFileContent s oracle fileId user newContent now).1 =
        Sum.inl ⟨400, "Content cannot be empty"⟩ ∧
      (updateFileContent s oracle fileId user newContent now).2 = s) ∧
    (newContent ≠ [] →
      ((∀ n ∈ (s.versionIndex fileId).getD [], n ≤ meta.version) →
        ∀ cc, s.fileContent fileId = some cc →
        (updateFileContent s oracle fileId user newContent now).2.versionRecords
            (fileId, meta.version) =
          some { version := meta.version, timestamp := now
                 author := jsOrStr user.name user.email, authorId := user.id
                 changeType := ChangeType.content
                 changes := { contentSize := some cc.length
                              contentHash := some (oracle.contentHash cc) }
                 storage := { contentBytes := cc.length
                              metadataBytes := oracle.metaJsonLength meta } }) ∧
      (s.fileContent fileId = none →
        (updateFileContent s oracle fileId user newContent now).2.versionRecords =
          s.versionRecords) ∧
      ((updateFileContent s oracle fileId user newContent now).2.fileMeta fileId).map
          FileMetadata.version = some (meta.version + 1)) := by
  subst hid
  constructor
  · intro hempty
    subst hempty
    simp only [updateFileContent, hmeta]
    exact ⟨rfl, rfl⟩
  · intro hne
    have hlen : ¬ newContent.length = 0 := by
      simpa [List.length_eq_zero] using hne
    refine ⟨?_, ?_, ?_⟩
    · intro hmax cc hcc
      simp only [updateFileContent, hmeta, hcc, if_neg hlen, updateUserStorageUsage]
      rw [createFileVersion_record_lookup _ _ _ _ _ _ _ hmax]
      simp [hcc]
    · intro hnone
      simp only [updateFileContent, hmeta, hnone, if_neg hlen, updateUserStorageUsage]
    · simp only [updateFileContent, hmeta, if_neg hlen]
      cases hcc : s.fileContent meta.id <;>
        simp only [hcc, updateUserStorageUsage] <;>
        rw [mapPut_same] <;> rfl

/-- C7 witness: on the store holding the two-byte file at version 5, an
empty body is rejected with 400 and the state comes back unchanged, and a
one-byte replacement body files the retrievable snapshot of the prior
two-byte content under version 5 and bumps the live version to 6. -/
theorem update_content_empty_rejected_witness :
    ((updateFileContent c2Store c1Oracle "f2" c1User [] 400).1 =
        Sum.inl ⟨400, "Content cannot be empty"⟩ ∧
      (updateFileContent c2Store c1Oracle "f2" c1User [] 400).2 = c2Store) ∧
    ((updateFileContent c2Store c1Oracle "f2" c1User [7] 400).2.versionRecords
        ("f2", c2File.version) =
      some { version := c2File.version, timestamp := 400
             author := jsOrStr c1User.name c1User.email, authorId := c1User.id
             changeType := ChangeType.content
             changes := { contentSize := some 2
                          contentHash := some (c1Oracle.contentHash [9, 9]) }
             storage := { contentBytes := 2
                          metadataBytes := c1Oracle.metaJsonLength c2File } }) ∧
    ((updateFileContent c2Store c1Oracle "f2" c1User [7] 400).2.fileMeta "f2").map
        FileMetadata.version = some (c2File.version + 1) := by
  refine ⟨?_, ?_, ?_⟩
  · exact (update_content_empty_rejected c2Store c1Oracle "f2" c1User [] 400 c2File
      rfl rfl).1 rfl
  · have h := (update_content_empty_rejected c2Store c1Oracle "f2" c1User [7] 400 c2File
      rfl rfl).2 (by decide)
    exact h.1 (by decide) [9, 9] rfl
  · have h := (update_content_empty_rejected c2Store c1Oracle "f2" c1User [7] 400 c2File
      rfl rfl).2 (by decide)
    exact h.2.2

/-! ## Claim C4: the bounded, descending version history

getFileVersions sorts the fetched records newest-timestamp-first with a
stable sort, so the listing is strictly descending by version number on
every store satisfying the write-time invariants that createFileVersion
itself maintains: the index is strictly descending and holds at most 50
numbers, each record carries the version number it is filed under, and
record timestamps never decrease as version numbers grow. -/

/-- C4: on a store satisfying the version-history invariants, the version
listing has at most 50 entries and is strictly descending by version
number; and one createFileVersion write keeps every index at 50 entries or
fewer, stores the index sorted-descending-then-truncated, and eagerly
deletes the record and the content blob of every version number trimmed
out beyond the 50 newest. -/
theorem version_history_bounded_descending
    (s : Store) (oracle : StoreOracle) (meta : FileMetadata) (user : JsUser)
    (ct : ChangeType) (ch : VersionChanges) (now : Nat) (fileId : String)
    (hboundAll : ∀ fid, ((s.versionIndex fid).getD []).length ≤ 50)
    (hdesc : ((s.versionIndex fileId).getD []).Pairwise (· > ·))
    (hver : ∀ n ∈ (s.versionIndex fileId).getD [],
      ((s.versionRecords (fileId, n)).map FileVersion.version).getD n = n)
    (hts : ∀ m ∈ (s.versionIndex fileId).getD [], ∀ n ∈ (s.versionIndex fileId).getD [],
      n < m →
      ((s.versionRecords (fileId, n)).map FileVersion.timestamp).getD 0 ≤
        ((s.versionRecords (fileId, m)).map FileVersion.timestamp).getD 0)
    (hnew : meta.version ∉ (s.versionIndex meta.id).getD []) :
    (getFileVersions s fileId).length ≤ 50 ∧
    (getFileVersions s fileId).Pairwise (fun a b => a.version > b.version) ∧
    (∀ fid, (((createFileVersion s oracle meta user ct ch now).versionIndex fid).getD
      []).length ≤ 50) ∧
    ((createFileVersion s oracle meta user ct ch now).versionIndex meta.id =
      some ((sortDescNat ((s.versionIndex meta.id).getD [] ++ [meta.version])).take 50)) ∧
    (∀ v ∈ (sortDescNat ((s.versionIndex meta.id).getD [] ++ [meta.version])).drop 50,
      (createFileVersion s oracle meta user ct ch now).versionRecords (meta.id, v) = none ∧
      (createFileVersion s oracle meta user ct ch now).versionContents (meta.id, v) = none) := by
  have hfetched : getFileVersions s fileId =
      (((s.versionIndex fileId).getD []).filterMap
        (fun n => s.versionRecords (fileId, n))).mergeSort versionNewestFirst := rfl
  have hpairTs : (((s.versionIndex fileId).getD []).filterMap
      (fun n => s.versionRecords (fileId, n))).Pairwise
      (fun a b => versionNewestFirst a b = true) := by
    rw [List.pairwise_filterMap]
    refine hdesc.imp_of_mem ?_
    intro m n hm hn hlt
    intro a ha b hb
    have h1 := hts m hm n hn hlt
    rw [ha, hb] at h1
    simp only [Option.map_some', Option.getD_some] at h1
    simp [versionNewestFirst, h1]
  have hsortid : getFileVersions s fileId =
      ((s.versionIndex fileId).getD []).filterMap (fun n => s.versionRecords (fileId, n)) := by
    rw [hfetched]
    exact List.mergeSort_of_sorted hpairTs
  refine ⟨?_, ?_, ?_, ?_, ?_⟩
  · rw [hsortid]
    exact le_trans (List.length_filterMap_le _ _) (hboundAll fileId)
  · rw [hsortid, List.pairwise_filterMap]
    refine hdesc.imp_of_mem ?_
    intro m n hm hn hlt
    intro a ha b hb
    have h1 := hver m hm
    have h2 := hver n hn
    rw [ha] at h1
    rw [hb] at h2
    simp only [Option.map_some', Option.getD_some] at h1 h2
    omega
  · intro fid
    unfold createFileVersion
    dsimp only
    rw [if_neg hnew, foldl_delVersionStep_versionIndex]
    dsimp only
    by_cases hfid : fid = meta.id
    · subst hfid
      rw [mapPut_same]
      exact List.length_take_le 50 _
    · rw [mapPut_other _ _ hfid]
      exact hboundAll fid
  · unfold createFileVersion
    dsimp only
    rw [if_neg hnew, foldl_delVersionStep_versionIndex]
    dsimp only
    exact mapPut_same _ _ _
  · intro v hv
    unfold createFileVersion
    dsimp only
    rw [if_neg hnew]
    exact foldl_delVersionStep_deletes _ _ _ _ hv

/-! ## C4 witness data: a file with versions 2 and 1 on record and a
pending write of version 3. -/

def c4Rec1 : FileVersion :=
  { version := 1, timestamp := 10, author := "Alice", authorId := "u1"
    changeType := ChangeType.metadata, changes := {}
    storage := { contentBytes := 0, metadataBytes := 5 } }

def c4Rec2 : FileVersion :=
  { version := 2, timestamp := 20, author := "Alice", authorId := "u1"
    changeType := ChangeType.metadata, changes := {}
    storage := { contentBytes := 0, metadataBytes := 5 } }

def c4Store : Store :=
  { fileMeta := fun _ => none
    fileContent := fun _ => none
    versionRecords := fun k =>
      if k = ("f", 2) then some c4Rec2 else if k = ("f", 1) then some c4Rec1 else none
    versionContents := fun _ => none
    versionIndex := fun k => if k = "f" then some [2, 1] else none
    cdnCache := fun _ => none
    storageUsage := fun _ => none }

def c4Meta : FileMetadata :=
  { id := "f", name := "doc", originalName := "doc.txt", path := "p"
    mimeType := "text/plain", size := 4, owner := "Alice", ownerId := "u1"
    created := 1, modified := 2, version := 3, isPublic := false
    tags := [], description := "", customFields := [] }

/-- C4 witness: the invariants hold on the two-version store and the
listing facts follow by instantiating the theorem there. -/
theorem version_history_bounded_descending_witness :
    (getFileVersions c4Store "f").length ≤ 50 ∧
    (getFileVersions c4Store "f").Pairwise (fun a b => a.version > b.version) ∧
    ((createFileVersion c4Store c1Oracle c4Meta c1User ChangeType.metadata {} 30).versionIndex
      "f" = some [3, 2, 1]) := by
  have hboundAll : ∀ fid, ((c4Store.versionIndex fid).getD []).length ≤ 50 := by
    intro fid
    by_cases h : fid = "f" <;> simp [c4Store, h]
  have h := version_history_bounded_descending c4Store c1Oracle c4Meta c1User
    ChangeType.metadata {} 30 "f" hboundAll (by decide) (by decide) (by decide) (by decide)
  refine ⟨h.1, h.2.1, ?_⟩
  have h4 := h.2.2.2.1
  have hid : c4Meta.id = "f" := rfl
  rw [hid] at h4
  have hsort : sortDescNat ((c4Store.versionIndex "f").getD [] ++ [c4Meta.version]) =
      [3, 2, 1] := by
    simp [c4Store, c4Meta, sortDescNat, List.mergeSort, List.merge]
  rw [hsort] at h4
  simpa using h4

/-- C3: the worker-proxy GET resolver consults the persistent KV cache
first; a KV hit is terminal and independent of the edge cache, the origin
and the fire-and-forget flags, and leaves the state alone.  Only on a KV
miss is the edge cache consulted; an edge hit is terminal, independent of
the origin, backfills the KV layer exactly when the unawaited write
succeeds, and the response never depends on that outcome.  Only when both
caches miss does the origin result shape the response. -/
theorem worker_proxy_layer_order (st : ProxyState) (o : ProxyOracle)
    (edgeCache edgeCacheB : String → Option WResp) (workerName workerPath : String)
    (req : JsRequest) (origin originB : WResp)
    (backfillOk missWriteOk backfillOkB missWriteOkB : Bool) :
    (∀ d, getFromKVCache st o
        ("worker:" ++ workerName ++ ":" ++ workerPath ++ ":" ++ hashRequest req) = some d →
      workerProxyStep st o edgeCache workerName workerPath req origin backfillOk missWriteOk =
        workerProxyStep st o edgeCacheB workerName workerPath req originB
          backfillOkB missWriteOkB ∧
      (workerProxyStep st o edgeCache workerName workerPath req origin backfillOk
        missWriteOk).2.1 = CacheLayer.kvHit ∧
      (workerProxyStep st o edgeCache workerName workerPath req origin backfillOk
        missWriteOk).2.2 = st) ∧
    (∀ c, getFromKVCache st o
        ("worker:" ++ workerName ++ ":" ++ workerPath ++ ":" ++ hashRequest req) = none →
      edgeCache (req.url ++ "-worker-proxy") = some c →
      (workerProxyStep st o edgeCache workerName workerPath req origin backfillOk
          missWriteOk).1 =
        (workerProxyStep st o edgeCache workerName workerPath req originB backfillOkB
          missWriteOkB).1 ∧
      (workerProxyStep st o edgeCache workerName workerPath req origin backfillOk
        missWriteOk).2.1 = CacheLayer.edgeHit ∧
      (workerProxyStep st o edgeCache workerName workerPath req origin true missWriteOk).2.2 =
        storeInKVCache st o
          ("worker:" ++ workerName ++ ":" ++ workerPath ++ ":" ++ hashRequest req)
          (workerProxyStep st o edgeCache workerName workerPath req origin true
            missWriteOk).1 workerPath ∧
      (workerProxyStep st o edgeCache workerName workerPath req origin false missWriteOk).2.2 =
        st) ∧
    (getFromKVCache st o
        ("worker:" ++ workerName ++ ":" ++ workerPath ++ ":" ++ hashRequest req) = none →
      edgeCache (req.url ++ "-worker-proxy") = none →
      (workerProxyStep st o edgeCache workerName workerPath req origin backfillOk
        missWriteOk).2.1 = CacheLayer.originMiss ∧
      (respOk origin = false →
        (workerProxyStep st o edgeCache workerName workerPath req origin backfillOk
          missWriteOk).1 = origin)) := by
  refine ⟨?_, ?_, ?_⟩
  · intro d hd
    simp only [workerProxyStep, workerProxyResolve, hd]
    exact ⟨by trivial, by trivial, by trivial⟩
  · intro c hkv hedge
    simp only [workerProxyStep, workerProxyResolve, hkv, hedge]
    exact ⟨by trivial, by trivial, by trivial, by trivial⟩
  · intro hkv hedge
    constructor
    · simp only [workerProxyStep, workerProxyResolve, hkv, hedge]
      by_cases hok : respOk origin
      · simp only [hok, Bool.not_true]
        by_cases h200 : (optimizeWorkerResponse o origin workerName workerPath req).status = 200 <;>
          simp [h200]
      · simp [hok]
    · intro hnotok
      simp [workerProxyStep, workerProxyResolve, hkv, hedge, hnotok]

/-! ## C3 witness data -/

def c3Cached : KVCachedResponse :=
  { status := 200, statusText := "OK", headers := [], body := [1], timestamp := 5 }

def c3CacheMeta : KVCacheMeta :=
  { expires := 100, size := 1, workerPath := "/a", contentType := "text/plain" }

def c3State : ProxyState :=
  { cdnMetadataCache := fun _ => some c3CacheMeta
    cdnCacheStore := fun _ => some c3Cached
    dailyStats := fun _ => none }

def c3StateMiss : ProxyState :=
  { cdnMetadataCache := fun _ => none
    cdnCacheStore := fun _ => none
    dailyStats := fun _ => none }

def c3Oracle : ProxyOracle :=
  { now := 50, today := "2026-01-01", iso := fun _ => "iso", etag := fun _ => "etag" }

def c3Req : JsRequest :=
  { method := "GET", url := "https://cdn/x", path := "/x", search := ""
    headers := fun _ => none, body := [] }

def c3Resp : WResp :=
  { status := 200, statusText := "OK", headers := [], body := [1] }

/-- C3 witness: on a state where the persistent layer holds a live entry
the resolver reports a KV hit and leaves the state alone; on an empty
persistent layer with a warm edge cache it reports an edge hit. -/
theorem worker_proxy_layer_order_witness :
    getFromKVCache c3State c3Oracle
      ("worker:" ++ "w" ++ ":" ++ "/a" ++ ":" ++ hashRequest c3Req) = some c3Cached ∧
    (workerProxyStep c3State c3Oracle (fun _ => some c3Resp) "w" "/a" c3Req c3Resp
      true true).2.1 = CacheLayer.kvHit ∧
    getFromKVCache c3StateMiss c3Oracle
      ("worker:" ++ "w" ++ ":" ++ "/a" ++ ":" ++ hashRequest c3Req) = none ∧
    (workerProxyStep c3StateMiss c3Oracle (fun _ => some c3Resp) "w" "/a" c3Req c3Resp
      true true).2.1 = CacheLayer.edgeHit := by
  have h1 := worker_proxy_layer_order c3State c3Oracle (fun _ => some c3Resp)
    (fun _ => some c3Resp) "w" "/a" c3Req c3Resp c3Resp true true true true
  have h2 := worker_proxy_layer_order c3StateMiss c3Oracle (fun _ => some c3Resp)
    (fun _ => some c3Resp) "w" "/a" c3Req c3Resp c3Resp true true true true
  exact ⟨rfl, (h1.1 c3Cached rfl).2.1, rfl, (h2.2.1 c3Resp rfl rfl).2.1⟩

/-! ## Character lemmas for the obfuscated directory segments -/

lemma base36Digit_ne_slash (k : Nat) (hk : k < 36) : base36Digit k ≠ '/' := by
  revert hk
  revert k
  decide

lemma toBase36Aux_no_slash :
    ∀ n acc, (∀ c ∈ acc, c ≠ '/') → ∀ c ∈ toBase36Aux n acc, c ≠ '/' := by
  intro n
  induction n using Nat.strong_induction_on with
  | _ n ih =>
    intro acc hacc c hc
    rw [toBase36Aux] at hc
    by_cases h36 : n < 36
    · rw [dif_pos h36] at hc
      rcases List.mem_cons.mp hc with heq | hmem
      · subst heq
        exact base36Digit_ne_slash n h36
      · exact hacc c hmem
    · rw [dif_neg h36] at hc
      have hdiv : n / 36 < n := Nat.div_lt_self (by omega) (by omega)
      refine ih (n / 36) hdiv _ ?_ c hc
      intro c' hc'
      rcases List.mem_cons.mp hc' with heq | hmem
      · subst heq
        exact base36Digit_ne_slash _ (Nat.mod_lt _ (by omega))
      · exact hacc c' hmem

lemma toBase36_no_slash (n : Nat) : ∀ c ∈ (toBase36 n).toList, c ≠ '/' := by
  intro c hc
  exact toBase36Aux_no_slash n [] (by intro c' hc'; cases hc') c hc

lemma jsSubstring_chars (s : String) (i j : Nat) :
    ∀ c ∈ (jsSubstring s i j).toList, c ∈ s.toList := by
  intro c hc
  simp only [jsSubstring, String.toList] at hc
  exact List.mem_of_mem_drop (List.mem_of_mem_take hc)

/-- The assembled obfuscated directory always begins with a nonempty
vocabulary token and contains no path separator when the spliced hash
fragment contains none. -/
lemma generateAdvancedObfuscatedDirectory_props (inp seg : String)
    (hseg : ∀ c ∈ seg.toList, c ≠ '/') :
    generateAdvancedObfuscatedDirectory inp seg ≠ "" ∧
    ∀ c ∈ (generateAdvancedObfuscatedDirectory inp seg).toList, c ≠ '/' := by
  unfold generateAdvancedObfuscatedDirectory
  dsimp only
  have e1 : (["serix", "sys", "lib", "bin", "opt", "var", "tmp", "usr", "etc", "proc", "dev", "mnt", "srv"] : List String).length = 13 := rfl
  have e2 : (["v2", "v3", "v4", "cache", "data", "store", "repo", "arch", "dist", "build", "core", "temp", "meta", "conf", "log"] : List String).length = 15 := rfl
  have e3 : (["x", "z", "q", "k", "j", "w", "v", "f", "g", "h", "p", "r", "s", "e", "i"] : List String).length = 15 := rfl
  simp only [e1, e2, e3]
  set hash := charCodeSum inp with hh
  have hpfx : ∀ i < 13,
      (["serix", "sys", "lib", "bin", "opt", "var", "tmp", "usr", "etc", "proc", "dev", "mnt", "srv"].getD i "").length > 0 ∧
      ∀ c ∈ (["serix", "sys", "lib", "bin", "opt", "var", "tmp", "usr", "etc", "proc", "dev", "mnt", "srv"].getD i "").toList, c ≠ '/' := by
    decide
  have hsuf : ∀ i < 15,
      ∀ c ∈ (["v2", "v3", "v4", "cache", "data", "store", "repo", "arch", "dist", "build", "core", "temp", "meta", "conf", "log"].getD i "").toList, c ≠ '/' := by
    decide
  have hmid : ∀ i < 15,
      ∀ c ∈ (["x", "z", "q", "k", "j", "w", "v", "f", "g", "h", "p", "r", "s", "e", "i"].getD i "").toList, c ≠ '/' := by
    decide
  have hp := hpfx (hash % 13) (Nat.mod_lt _ (by omega))
  have hs := hsuf ((hash * 7) % 15) (Nat.mod_lt _ (by omega))
  have hm := hmid ((hash * 13) % 15) (Nat.mod_lt _ (by omega))
  constructor
  · intro hemp
    have hlen := congrArg String.length hemp
    simp only [String.length_append] at hlen
    have h0 : ("" : String).length = 0 := rfl
    rw [h0] at hlen
    omega
  · intro c hc
    simp only [String.toList, String.data_append, List.mem_append] at hc
    rcases hc with ((((hc | hc) | hc) | hc) | hc)
    · exact hp.2 c hc
    · exact hseg c hc
    · exact hm c hc
    · exact toBase36_no_slash _ c hc
    · exact hs c hc

/-- C8: every minted asset path is /prod/, the continent, between 3 and 8
obfuscated directory segments, the assembled filename with its
pseudo-extension, and the literal streaming routing suffix; each
directory segment is a nonempty string free of path separators, so the
depth bound is exactly the number of path segments between the continent
and the filename. -/
theorem obfuscated_path_depth_bounded (fileName : String) (bufferLen : Nat)
    (userPath uploadType : String) (o : PathOracle)
    (hpc : ∀ c ∈ o.primaryHash.toList, c ≠ '/')
    (hmc : ∀ c ∈ o.metadataHash.toList, c ≠ '/') :
    generateComplexAssetPath fileName bufferLen userPath uploadType o =
      "/prod/" ++ "na" ++ "/" ++
        String.intercalate "/" (assetPathDirectories fileName bufferLen uploadType o) ++ "/" ++
        o.assembledName ++ obfuscateFileExtension (jsFileExtension fileName) o ++
        "/object/live.m3u8" ∧
    3 ≤ (assetPathDirectories fileName bufferLen uploadType o).length ∧
    (assetPathDirectories fileName bufferLen uploadType o).length ≤ 8 ∧
    ∀ d ∈ assetPathDirectories fileName bufferLen uploadType o,
      d ≠ "" ∧ ∀ c ∈ d.toList, c ≠ '/' := by
  have hsubp : ∀ i j : Nat, ∀ c ∈ (jsSubstring o.primaryHash i j).toList, c ≠ '/' :=
    fun i j c hc => hpc c (jsSubstring_chars _ _ _ c hc)
  have hsubm : ∀ i j : Nat, ∀ c ∈ (jsSubstring o.metadataHash i j).toList, c ≠ '/' :=
    fun i j c hc => hmc c (jsSubstring_chars _ _ _ c hc)
  refine ⟨rfl, ?_, ?_, ?_⟩
  · simp only [assetPathDirectories, generateMetadataDirectoryStructure, List.length_cons]
    omega
  · simp only [assetPathDirectories, generateMetadataDirectoryStructure, List.length_cons,
      List.length_map, List.length_range']
    omega
  · intro d hd
    simp only [assetPathDirectories, generateMetadataDirectoryStructure, List.mem_cons,
      List.mem_map] at hd
    rcases hd with h | h | h | ⟨i, _hi, h⟩
    · subst h
      exact generateAdvancedObfuscatedDirectory_props _ _ (hsubp 0 4)
    · subst h
      exact generateAdvancedObfuscatedDirectory_props _ _ (hsubm 0 4)
    · subst h
      exact generateAdvancedObfuscatedDirectory_props _ _ (hsubp 8 12)
    · subst h
      refine generateAdvancedObfuscatedDirectory_props _ _ ?_
      intro c hc
      simp only [String.toList, String.data_append, List.mem_append] at hc
      rcases hc with hc | hc
      · exact hsubp _ _ c hc
      · exact hsubm _ _ c hc

/-! ## C8 witness data: a concrete oracle with hex digests. -/

def c8Oracle : PathOracle :=
  { timestamp := 1700000000000
    randomSeed := "k3j2h1"
    primaryHash := String.mk (List.replicate 64 'a')
    metadataHash := String.mk (List.replicate 40 'b')
    combinedHash := String.mk (List.replicate 128 'c')
    checksum := "0123456789abcdef"
    entropyStr := "2.3"
    entropyGt3 := false
    assembledName := "seg0seg1seg2"
    extBase := "1f3k" }

/-- C8 witness: the depth facts instantiated on a concrete upload of a
2000-byte file named photo.JPG. -/
theorem obfuscated_path_depth_bounded_witness :
    3 ≤ (assetPathDirectories "photo.JPG" 2000 "direct" c8Oracle).length ∧
    (assetPathDirectories "photo.JPG" 2000 "direct" c8Oracle).length ≤ 8 := by
  have h := obfuscated_path_depth_bounded "photo.JPG" 2000 "u/p" "direct" c8Oracle
    (by decide) (by decide)
  exact ⟨h.2.1, h.2.2.1⟩
